import Mathlib

/-!
Verification of the mailbox delivery protocol of the Code2027 repository.

The repository exchanges messages between two agents through filesystem
"mailbox" directories.  We shallowly embed the message codecs
(email-style text blocks and JSON records), the delivery agents'
message-processing state machines, the inbox listing/claiming logic and
the presentation formatters, translating each Python function of the
source into an executable Lean definition, and prove or refute the
spec's claims about them.

Python strings are modelled as `List Char`; Python dictionaries as
association lists.  `json.loads` is modelled by an abstract oracle
`Str → Option JDict` (`none` = the bytes are not a JSON document); all
other functions are translated directly from the source.
-/

namespace Mailbox

/-- Python `str` is modelled as a list of characters. -/
abbrev Str := List Char

/-- The characters Python's `str.strip()` removes (ASCII whitespace). -/
def isPyWs (c : Char) : Bool :=
  c = ' ' || c = '\t' || c = '\n' || c = '\r' || c = '\x0b' || c = '\x0c'

/-- Python `s.strip()` restricted to removing trailing whitespace. -/
def stripEnd (l : Str) : Str :=
  (l.reverse.dropWhile isPyWs).reverse

/-- Python `s.strip()`: remove leading and trailing whitespace. -/
def pyStrip (l : Str) : Str :=
  stripEnd (l.dropWhile isPyWs)

/-- Python `s.split('\n')`. -/
def splitOnNl : Str → List Str
  | [] => [[]]
  | c :: cs =>
    if c = '\n' then [] :: splitOnNl cs
    else
      match splitOnNl cs with
      | [] => [[c]]
      | l :: ls => (c :: l) :: ls

/-- Python `'\n'.join(lines)`. -/
def joinNl : List Str → Str
  | [] => []
  | [l] => l
  | l :: ls => l ++ '\n' :: joinNl ls

/-- Python `s.lower()` (ASCII keys only in this code base). -/
def toLowerStr (l : Str) : Str := l.map Char.toLower

/-- Python `s.upper()`. -/
def toUpperStr (l : Str) : Str := l.map Char.toUpper

/-- Decimal rendering of a natural number, as in Python string formatting. -/
def natStr (n : Nat) : Str := (Nat.repr n).toList

/-- The part of `line` before the first colon: `line.split(':', 1)[0]`. -/
def keyPart (l : Str) : Str := l.takeWhile (fun c => c != ':')

/-- The part of `line` after the first colon: `line.split(':', 1)[1]`. -/
def valPart (l : Str) : Str := (l.dropWhile (fun c => c != ':')).tail

/-- Header dictionary: later insertions shadow earlier ones, so we
prepend new bindings and look up the first match. -/
def lookupStr (k : Str) : List (Str × Str) → Option Str
  | [] => none
  | (k', v) :: rest => if k' = k then some v else lookupStr k rest

/-- The canonical message shape returned by `parse_email_format` in
`mcp-servers/unified-mcp-server/server.py` (keys id/from/to/subject/content). -/
structure EmailMsg where
  id : Str
  from_ : Str
  to_ : Str
  subject : Str
  content : Str
deriving DecidableEq, Repr

/-- The header/body scan loop of `parse_email_format`: walks the lines,
collecting `Key: value` headers until the first blank line, after which
every line (regardless of shape) belongs to the content. -/
def parseLinesAux : List Str → List (Str × Str) → List Str → Bool →
    List (Str × Str) × List Str
  | [], hs, cs, _ => (hs, cs)
  | l :: ls, hs, cs, inContent =>
    if inContent then parseLinesAux ls hs (cs ++ [l]) true
    else if pyStrip l = [] then parseLinesAux ls hs cs true
    else if (':' : Char) ∈ l then
      parseLinesAux ls ((toLowerStr (pyStrip (keyPart l)), pyStrip (valPart l)) :: hs) cs false
    else parseLinesAux ls hs cs false

/-- `parse_email_format` from `unified-mcp-server/server.py` (the same
parsing logic appears verbatim in `ai-bridge-mcp-server/server.py` and
`clients/mcp_client_gemini.py`, which merely rename the output keys
`subject`/`content` to `t`/`c`).  Returns `none` when any of the four
required headers is missing. -/
def parse_email_format (content : Str) : Option EmailMsg :=
  let parsed := parseLinesAux (splitOnNl content) [] [] false
  match lookupStr "id".toList parsed.1, lookupStr "from".toList parsed.1,
      lookupStr "to".toList parsed.1, lookupStr "subject".toList parsed.1 with
  | some i, some f, some t, some s =>
    some ⟨i, f, t, s, pyStrip (joinNl parsed.2)⟩
  | _, _, _, _ => none

/-- `create_email_message` from `.server/send_to_gemini.py` (archived
v2.0): the email-style wire encoding
`ID: …\nFrom: …\nTo: …\nSubject: …\n\n<content>`. -/
def create_email_message (msg_id from_a to_a subject content : Str) : Str :=
  "ID: ".toList ++ msg_id ++ '\n' ::
    ("From: ".toList ++ from_a ++ '\n' ::
      ("To: ".toList ++ to_a ++ '\n' ::
        ("Subject: ".toList ++ subject ++ '\n' :: '\n' :: content)))

/-- Encoding an `EmailMsg` with `create_email_message`. -/
def encodeEmail (m : EmailMsg) : Str :=
  create_email_message m.id m.from_ m.to_ m.subject m.content

/-! ## JSON values

The JSON payloads the repository exchanges are flat records of strings,
with one nested object (`payload`).  We model the values `json.loads`
can return in this code base as strings and objects; `json.dumps` /
`json.loads` transport them faithfully, so the JSON codecs are modelled
at the value level. -/

inductive JVal where
  | s : Str → JVal
  | o : List (Str × Str) → JVal
deriving DecidableEq, Repr

/-- A Python dict produced by `json.loads` (keys are unique).  Values
are strings or string-to-string objects, which covers every payload
this repository reads or writes (the only nested object is `payload`,
whose fields `content` and `original_message_id` are strings). -/
abbrev JDict := List (Str × JVal)

/-- Python `d[k]` / `k in d` as an optional lookup. -/
def dictGet (kvs : JDict) (k : Str) : Option JVal :=
  (kvs.find? (fun p => p.1 = k)).map (fun p => p.2)

/-- Lookup in a string-valued dict (the `payload` sub-object). -/
def sdictGet (kvs : List (Str × Str)) (k : Str) : Option Str :=
  (kvs.find? (fun p => p.1 = k)).map (fun p => p.2)

/-- Python truthiness of a string or dict (`if x:`): empty is falsy. -/
def jvTruthy : JVal → Bool
  | .s l => !l.isEmpty
  | .o kvs => !kvs.isEmpty

/-- The string carried by a JSON value; validated fields are always
strings, so the object case is unreachable where this is used. -/
def jvStr : JVal → Str
  | .s l => l
  | .o _ => []

/-- Outcome of `parse_json_format` on the result of `json.loads`:
`ok` (a message dict is returned), `failed` (returns `None`), or
`raised` (an uncaught `AttributeError` escapes, to be caught by the
caller's surrounding `try`). -/
inductive JResult where
  | ok : JDict → JResult
  | failed : JResult
  | raised : JResult
deriving DecidableEq, Repr

/-- Python `k in message`. -/
def hasKey (kvs : JDict) (k : Str) : Bool := (dictGet kvs k).isSome

/-- `message.get('payload', {}).get('content', '')`: `none` models the
`AttributeError` raised when `payload` is present but not a dict. -/
def payloadContent (kvs : JDict) : Option JVal :=
  match dictGet kvs "payload".toList with
  | none => some (JVal.s "".toList)
  | some (JVal.o p) => some (JVal.s ((sdictGet p "content".toList).getD "".toList))
  | some (JVal.s _) => none

/-- `parse_json_format` from
`ai-bridge/mcp-servers/ai-bridge-mcp-server/server.py`: accepts the
compact shape (keys `id`,`to`,`t`,`c` all present → the raw dict is
returned) and the legacy shape (`message_id` present → normalized with
`'unknown'` defaults for missing sender/recipient/type); the input
`Option JDict` is the result of `json.loads` (`none` = syntax error,
which the function catches and turns into `None`). -/
def parse_json_format (loaded : Option JDict) : JResult :=
  match loaded with
  | none => .failed
  | some kvs =>
    if hasKey kvs "id".toList && hasKey kvs "to".toList &&
        hasKey kvs "t".toList && hasKey kvs "c".toList then
      .ok kvs
    else
      match dictGet kvs "message_id".toList with
      | none => .failed
      | some mid =>
        match payloadContent kvs with
        | none => .raised
        | some c =>
          .ok [("id".toList, mid),
               ("from".toList, (dictGet kvs "sender".toList).getD (JVal.s "unknown".toList)),
               ("to".toList, (dictGet kvs "recipient".toList).getD (JVal.s "unknown".toList)),
               ("t".toList, (dictGet kvs "type".toList).getD (JVal.s "unknown".toList)),
               ("c".toList, c)]

/-- The dict built from a parsed email message by the
`parse_email_format` variant of `ai-bridge-mcp-server/server.py`
(output keys `id`,`from`,`to`,`t`,`c`). -/
def emailToDict (m : EmailMsg) : JDict :=
  [("id".toList, JVal.s m.id), ("from".toList, JVal.s m.from_),
   ("to".toList, JVal.s m.to_), ("t".toList, JVal.s m.subject),
   ("c".toList, JVal.s m.content)]

def txtSuffix : Str := ".txt".toList

def jsonSuffix : Str := ".json".toList

/-- `parse_message_file` from
`ai-bridge/mcp-servers/ai-bridge-mcp-server/server.py`.
`jsonLoads` abstracts `json.loads` on the raw file text (`none` = not a
JSON document).  The source tries email format for `.txt` files, then
JSON for `.json` files, then JSON and finally email for any file; the
two JSON attempts are the same pure call, so they are collapsed here.
A `raised` JSON attempt is caught by the surrounding `try` and yields
`None` without trying the email fallback. -/
def parse_message_file (jsonLoads : Str → Option JDict) (suffix content : Str) :
    Option JDict :=
  let emailAttempt : Option JDict := (parse_email_format content).map emailToDict
  match (if suffix = txtSuffix then emailAttempt else none) with
  | some m => some m
  | none =>
    match parse_json_format (jsonLoads content) with
    | .raised => none
    | .ok d => some d
    | .failed => emailAttempt

/-- The compact message record assembled by `send_to_gemini` in
`ai-bridge/.server/send_to_gemini.py`. -/
structure CompactMsg where
  id : Str
  to_ : Str
  t : Str
  c : Str
deriving DecidableEq, Repr

/-- `send_to_gemini`'s wire dict: `{"id": …, "to": …, "t": …, "c": …}`. -/
def encodeCompact (m : CompactMsg) : JDict :=
  [("id".toList, JVal.s m.id), ("to".toList, JVal.s m.to_),
   ("t".toList, JVal.s m.t), ("c".toList, JVal.s m.c)]

/-! ## The JSON delivery agent (`mcp_client.py`)

`mcp_client.py` polls Gemini's outbox, validates each JSON message
against `MESSAGE_SCHEMA`, routes it through the
`.processing`/`.unread`/`.malformed` directories and emits ack/error
replies into its own outbox.  The filesystem state is a record of
directory contents; a file whose bytes are not a JSON document carries
payload `none` (`json.load` raises on it). -/

namespace McpClient

/-- `v` is a JSON string (jsonschema `{"type": "string"}` on a present
property). -/
def isStr : Option JVal → Bool
  | some (JVal.s _) => true
  | _ => false

/-- `validate_message` from `mcp_client.py`: jsonschema validation
against `MESSAGE_SCHEMA`.  Required keys `message_id`, `timestamp`,
`sender`, `recipient`, `type`, `payload`; `sender`/`recipient` in
`{gemini, claude}`; `type` in the five-value enum; `payload` an object
with required string `content` (its optional `original_message_id` is a
string by construction of the inner dict).  jsonschema does not enforce
the `date-time` format annotation without an explicit format checker,
so `timestamp` only needs to be a string. -/
def validate_message (kvs : JDict) : Bool :=
  isStr (dictGet kvs "message_id".toList) &&
  isStr (dictGet kvs "timestamp".toList) &&
  (dictGet kvs "sender".toList = some (JVal.s "gemini".toList) ||
    dictGet kvs "sender".toList = some (JVal.s "claude".toList)) &&
  (dictGet kvs "recipient".toList = some (JVal.s "gemini".toList) ||
    dictGet kvs "recipient".toList = some (JVal.s "claude".toList)) &&
  (dictGet kvs "type".toList = some (JVal.s "task".toList) ||
    dictGet kvs "type".toList = some (JVal.s "status_update".toList) ||
    dictGet kvs "type".toList = some (JVal.s "query".toList) ||
    dictGet kvs "type".toList = some (JVal.s "ack".toList) ||
    dictGet kvs "type".toList = some (JVal.s "error".toList)) &&
  (match dictGet kvs "payload".toList with
   | some (JVal.o p) => (sdictGet p "content".toList).isSome
   | _ => false)

/-- `create_message` from `mcp_client.py`.  `now` abstracts the UTC
clock reading used for `message_id` and `timestamp`; the
`original_message_id` tag is only attached when the passed value is
truthy (`if original_message_id:`). -/
def create_message (now msg_type content : Str) (orig : Option JVal) : JDict :=
  let tagged : Bool :=
    match orig with
    | some v => jvTruthy v
    | none => false
  let payload : List (Str × Str) :=
    if tagged then
      [("content".toList, content),
       ("original_message_id".toList, jvStr (orig.getD (JVal.s [])))]
    else [("content".toList, content)]
  [("message_id".toList, JVal.s ("claude-".toList ++ now)),
   ("timestamp".toList, JVal.s now),
   ("sender".toList, JVal.s "claude".toList),
   ("recipient".toList, JVal.s "gemini".toList),
   ("type".toList, JVal.s msg_type),
   ("payload".toList, JVal.o payload)]

/-- `send_ack`: an `ack` message referencing the acknowledged id. -/
def send_ack (now : Str) (origId : JVal) : JDict :=
  create_message now "ack".toList
    ("Acknowledged message ".toList ++ jvStr origId) (some origId)

/-- `send_error`: an `error` message referencing the failing id. -/
def send_error (now : Str) (origId : JVal) (errContent : Str) : JDict :=
  create_message now "error".toList errContent (some origId)

/-- One inbox file: its name and the result of `json.load` on its bytes
(`none` = the bytes are not valid JSON, so `json.load` raises). -/
structure Entry where
  name : Str
  payload : Option JDict
deriving DecidableEq, Repr

/-- The filesystem state the agent manipulates: the lifecycle
directories of its inbox plus its own outbox (the list of messages it
has sent). -/
structure FS where
  processing : List Entry
  unread : List Entry
  malformed : List Entry
  outbox : List JDict
deriving DecidableEq, Repr

/-- `message['type'] not in ['ack', 'error']`. -/
def typeNotAckError (kvs : JDict) : Bool :=
  match dictGet kvs "type".toList with
  | some (JVal.s ty) => !(ty = "ack".toList || ty = "error".toList)
  | _ => true

/-- `process_message` from `mcp_client.py`, applied to an inbox file the
agent has successfully renamed into `.processing`.  The outcomes:
* `json.load` raises → the `except` block only logs, so the file stays
  in `.processing`;
* validation fails → the file is renamed into `.malformed` and an
  `error` reply (tagged with `message.get('message_id', 'unknown')`) is
  sent;
* validation succeeds → an `ack` is sent unless the type is
  `ack`/`error`, and the file is renamed into `.unread`. -/
def process_message (now : Str) (st : FS) (e : Entry) : FS :=
  match e.payload with
  | none => { st with processing := st.processing ++ [e] }
  | some kvs =>
    if validate_message kvs then
      let out :=
        if typeNotAckError kvs then
          st.outbox ++ [send_ack now ((dictGet kvs "message_id".toList).getD (JVal.s []))]
        else st.outbox
      { st with unread := st.unread ++ [e], outbox := out }
    else
      { st with malformed := st.malformed ++ [e],
                outbox := st.outbox ++
                  [send_error now
                    ((dictGet kvs "message_id".toList).getD (JVal.s "unknown".toList))
                    ("Message failed validation: ".toList ++ e.name)] }

/-- Processing a batch of claimed files in order (the `for` loop of
`poll_inbox`). -/
def processAll (now : Str) (st : FS) (entries : List Entry) : FS :=
  entries.foldl (process_message now) st

/-- Number of `ack` messages in an outbox. -/
def countAcks (outbox : List JDict) : Nat :=
  outbox.countP (fun m => dictGet m "type".toList = some (JVal.s "ack".toList))

/-- `f.name.startswith('.')`. -/
def isHidden (n : Str) : Bool :=
  match n with
  | c :: _ => c = '.'
  | [] => false

/-- `INBOX_DIR.glob("*.json")` name matching. -/
def matchesJson (n : Str) : Bool := Mailbox.jsonSuffix.isSuffixOf n

/-- The candidate listing of `poll_inbox` in `mcp_client.py`:
`[f for f in INBOX_DIR.glob("*.json") if not f.name.startswith('.')]`,
applied to the directory enumeration (name, mtime) pairs in the order
the OS returns them (`pathlib.glob` does not sort). -/
def poll_inbox_listing (dir : List (Str × ℚ)) : List (Str × ℚ) :=
  dir.filter (fun f => matchesJson f.1 && !isHidden f.1)

end McpClient

/-! ## The claim race (`mcp_client.py`, `poll_inbox`/`process_message`)

Two delivery agents may poll the same inbox.  A claim is the atomic
`filepath.rename(processing_path)` at the top of `process_message`: it
succeeds for at most one claimer, and the loser's `FileNotFoundError`
is raised *outside* the `try` block, so it propagates through
`poll_inbox` up to the `main` loop (which catches it, logs
"Polling error" and sleeps), aborting the rest of the poll cycle.  The
model tracks file names through the shared inbox root and each agent's
`.processing` directory. -/

namespace Race

structure RSt where
  inbox : List Mailbox.Str
  procA : List Mailbox.Str
  procB : List Mailbox.Str
deriving DecidableEq, Repr

/-- Agent A's atomic claim: `rename` succeeds iff the source file still
exists, and relocates it into A's `.processing`. -/
def claimA (st : RSt) (n : Mailbox.Str) : Option RSt :=
  if n ∈ st.inbox then
    some { st with inbox := st.inbox.erase n, procA := st.procA ++ [n] }
  else none

/-- Agent B's atomic claim. -/
def claimB (st : RSt) (n : Mailbox.Str) : Option RSt :=
  if n ∈ st.inbox then
    some { st with inbox := st.inbox.erase n, procB := st.procB ++ [n] }
  else none

/-- Agent A's poll cycle over a (possibly stale) candidate listing.
A failed claim raises `FileNotFoundError`, which nothing in
`process_message`/`poll_inbox` catches: the cycle aborts (second
component `true`) and the remaining candidates are left untouched. -/
def pollCycleA : RSt → List Mailbox.Str → RSt × Bool
  | st, [] => (st, false)
  | st, n :: rest =>
    match claimA st n with
    | some st' => pollCycleA st' rest
    | none => (st, true)

/-- How many copies of file `n` exist anywhere in the store. -/
def total (st : RSt) (n : Mailbox.Str) : Nat :=
  st.inbox.count n + st.procA.count n + st.procB.count n

end Race

/-! ## Presentation formatters

`format_messages` exists in two claim-relevant variants: the unified
MCP server's (budget 1000; renders subject, id and timestamp per
message) and the `check-mailbox.py` watcher's (budget 500; labels each
message by its source file name).  Both are pure string builders. -/

/-- A delivered message as the formatters receive it. -/
structure DisplayMsg where
  file : Str
  id : Str
  subject : Str
  timestamp : Str
  content : Str
deriving DecidableEq, Repr

namespace UnifiedServer

def truncMarker : Str := "\n\n... (truncated, 1000 char limit)".toList

/-- The `content` element appended for one message:
`content = msg['content'].strip()`, truncated at 1000 characters. -/
def contentElem (m : DisplayMsg) : Str :=
  let s := pyStrip m.content
  if 1000 < s.length then s.take 1000 ++ truncMarker else s

/-- The list elements appended for message `i` of `count` in the loop of
`format_messages` (`unified-mcp-server/server.py`). -/
def msgBlock (count i : Nat) (m : DisplayMsg) : List Str :=
  ["**Message ".toList ++ natStr i ++ "/".toList ++ natStr count ++
     "** [".toList ++ m.subject ++ "]".toList,
   "ID: ".toList ++ m.id,
   "Time: ".toList ++ m.timestamp,
   [],
   contentElem m,
   [],
   List.replicate 60 '-',
   []]

/-- The `for i, msg in enumerate(messages, 1)` loop. -/
def formatBlocks (count : Nat) : Nat → List DisplayMsg → List Str
  | _, [] => []
  | i, m :: rest => msgBlock count i m ++ formatBlocks count (i + 1) rest

/-- `format_messages` from `unified-mcp-server/server.py`. -/
def format_messages (messages : List DisplayMsg) (sender_name : Str) : Str :=
  if messages.isEmpty then
    "No new messages from ".toList ++ sender_name ++ ".".toList
  else
    joinNl
      (("📬 **NEW MESSAGES FROM ".toList ++ toUpperStr sender_name ++
          "** (".toList ++ natStr messages.length ++ " unread)".toList) ::
        List.replicate 60 '=' :: [] ::
        formatBlocks messages.length 1 messages)

end UnifiedServer

namespace CheckMailbox

def truncMarker : Str := "\n\n... (truncated)".toList

/-- The `content` element for one message, truncated at 500 chars. -/
def contentElem (m : DisplayMsg) : Str :=
  let s := pyStrip m.content
  if 500 < s.length then s.take 500 ++ truncMarker else s

/-- The list elements appended for message `i` of `count` in
`check-mailbox.py`'s `format_messages` (messages are labelled by source
file name; no subject/id/timestamp lines). -/
def msgBlock (count i : Nat) (m : DisplayMsg) : List Str :=
  ["**Message ".toList ++ natStr i ++ "/".toList ++ natStr count ++
     "** (from ".toList ++ m.file ++ "):".toList,
   [],
   contentElem m,
   [],
   List.replicate 60 '-',
   []]

def formatBlocks (count : Nat) : Nat → List DisplayMsg → List Str
  | _, [] => []
  | i, m :: rest => msgBlock count i m ++ formatBlocks count (i + 1) rest

/-- `format_messages` from `clients/check-mailbox.py`; returns `none`
for an empty batch (the caller prints nothing then). -/
def format_messages (messages : List DisplayMsg) : Option Str :=
  if messages.isEmpty then none
  else
    some (joinNl
      (("📬 **NEW MESSAGES FROM GEMINI** (".toList ++
          natStr messages.length ++ " unread)".toList) ::
        List.replicate 60 '=' :: [] ::
        formatBlocks messages.length 1 messages))

end CheckMailbox

/-! ## The checkpoint-based reader (`ai-bridge-mcp-server/server.py`)

This legacy delivery mode polls by modification time: a single
checkpoint file holds the last-scan timestamp, and a scan returns the
readable pattern-matching files strictly newer than it, sorted by mtime
ascending. -/

namespace BridgeServer

/-- A file of the scanned directory: name, text, modification time and
whether `read_text()` succeeds on it (unreadable files are skipped by
the `except` inside the loop). -/
structure FileE where
  name : Str
  content : Str
  mtime : ℚ
  readable : Bool
deriving DecidableEq

/-- Ascending modification time, the sort key of `get_new_messages`. -/
def timeLE (a b : FileE) : Prop := a.mtime ≤ b.mtime

instance : DecidableRel timeLE :=
  fun a b => inferInstanceAs (Decidable (a.mtime ≤ b.mtime))

instance : IsTotal FileE timeLE := ⟨fun a b => le_total a.mtime b.mtime⟩

instance : IsTrans FileE timeLE := ⟨fun _ _ _ h h' => le_trans h h'⟩

/-- `get_last_check_time` from `ai-bridge-mcp-server/server.py`:
`checkFile` is the checkpoint file's text (`none` = the file does not
exist), `parseFloat` abstracts Python's `float(·)` (`none` = raises,
caught by the `except`); both failure paths return `0`. -/
def get_last_check_time (parseFloat : Str → Option ℚ) (checkFile : Option Str) : ℚ :=
  match checkFile with
  | none => 0
  | some s =>
    match parseFloat (pyStrip s) with
    | some v => v
    | none => 0

/-- `get_new_messages` from `ai-bridge-mcp-server/server.py`: every
readable file matching the glob pattern with `mtime > last_check`, in
mtime-ascending order (Python's stable `list.sort`, modelled by the
equally stable insertion sort). -/
def get_new_messages (dir : List FileE) (pattern : Str → Bool) (last_check : ℚ) :
    List FileE :=
  List.insertionSort timeLE
    (dir.filter (fun f => pattern f.name && decide (last_check < f.mtime) && f.readable))

end BridgeServer

/-! ## The email delivery agent (archived `clients/mcp_client_gemini.py`)

The archived client polls for `.txt`/`.json` files, claims each into
`.processing`, parses it with `parse_message_file` and resolves it to
`.unread` (parse succeeded) or `.malformed` (parse returned `None`).
It sends no automatic acknowledgments. -/

namespace EmailClient

/-- An inbox file: name and raw text. -/
structure TEntry where
  name : Str
  text : Str
deriving DecidableEq, Repr

/-- `pathlib.Path(name).suffix`: the final `.ext` part of the name (a
lone leading dot is not an extension).  The repository's message files
are `<message-id>.txt` / `<message-id>.json`. -/
def suffixOf (n : Str) : Str :=
  match n.reverse.dropWhile (fun c => c != '.') with
  | [] => []
  | [_] => []
  | _ => '.' :: (n.reverse.takeWhile (fun c => c != '.')).reverse

/-- The lifecycle directories of the email client's inbox. -/
structure TFS where
  processing : List TEntry
  unread : List TEntry
  malformed : List TEntry
deriving DecidableEq, Repr

/-- `process_message` from the archived `clients/mcp_client_gemini.py`:
claim into `.processing`, parse, then resolve to `.unread` or
`.malformed`. -/
def process_message (jsonLoads : Str → Option JDict) (st : TFS) (e : TEntry) : TFS :=
  match parse_message_file jsonLoads (suffixOf e.name) e.text with
  | none => { st with malformed := st.malformed ++ [e] }
  | some _ => { st with unread := st.unread ++ [e] }

end EmailClient

/-- Whether `pat` occurs as a contiguous run inside `s` (used to state
that a content string does or does not appear in a rendered digest). -/
def isSegmentOf (pat : Str) : Str → Bool
  | [] => pat.isEmpty
  | c :: rest => (pat.isPrefixOf (c :: rest)) || isSegmentOf pat rest

/-! ## Basic lemmas about the string helpers -/

theorem splitOnNl_ne_nil (s : Str) : splitOnNl s ≠ [] := by
  cases s with
  | nil => simp [splitOnNl]
  | cons c cs =>
    simp only [splitOnNl]
    by_cases h : c = '\n'
    · simp [h]
    · simp only [h, if_false]
      cases h2 : splitOnNl cs <;> simp

theorem splitOnNl_cons_nl (cs : Str) : splitOnNl ('\n' :: cs) = [] :: splitOnNl cs := by
  simp [splitOnNl]

theorem splitOnNl_append (a rest : Str) (h : ('\n' : Char) ∉ a) :
    splitOnNl (a ++ '\n' :: rest) = a :: splitOnNl rest := by
  induction a with
  | nil =>
    simp [splitOnNl]
  | cons c cs ih =>
    have hc : c ≠ '\n' := fun e => h (e ▸ List.mem_cons_self c cs)
    have h' : ('\n' : Char) ∉ cs := fun m => h (List.mem_cons_of_mem _ m)
    rw [List.cons_append]
    simp only [splitOnNl, if_neg hc, ih h']

theorem joinNl_cons_cons (a b : Str) (ls : List Str) :
    joinNl (a :: b :: ls) = a ++ '\n' :: joinNl (b :: ls) := rfl

theorem joinNl_splitOnNl (s : Str) : joinNl (splitOnNl s) = s := by
  induction s with
  | nil => simp [splitOnNl, joinNl]
  | cons c cs ih =>
    by_cases h : c = '\n'
    · subst h
      rw [splitOnNl_cons_nl]
      cases h2 : splitOnNl cs with
      | nil => exact absurd h2 (splitOnNl_ne_nil cs)
      | cons l ls =>
        rw [h2] at ih
        rw [joinNl_cons_cons, ih]
        rfl
    · simp only [splitOnNl, if_neg h]
      cases h2 : splitOnNl cs with
      | nil => exact absurd h2 (splitOnNl_ne_nil cs)
      | cons l ls =>
        rw [h2] at ih
        cases ls with
        | nil =>
          simp only [joinNl] at ih ⊢
          rw [ih]
        | cons l2 ls2 =>
          rw [joinNl_cons_cons] at ih
          rw [joinNl_cons_cons, List.cons_append, ih]

theorem pyStrip_cons_ws (c : Char) (l : Str) (h : isPyWs c = true) :
    pyStrip (c :: l) = pyStrip l := by
  simp [pyStrip, List.dropWhile_cons, h]

theorem pyStrip_cons_ne_nil (c : Char) (l : Str) (h : isPyWs c = false) :
    pyStrip (c :: l) ≠ [] := by
  simp only [pyStrip, List.dropWhile_cons, h, Bool.false_eq_true, if_false, stripEnd]
  intro he
  have h1 : (c :: l).reverse.dropWhile isPyWs = [] := by
    have := congrArg List.reverse he
    simpa using this
  have h2 : isPyWs c = true := by
    have := List.dropWhile_eq_nil_iff.mp h1
    exact this c (by simp)
  rw [h2] at h
  cases h

theorem pyStrip_nil : pyStrip [] = [] := rfl

theorem keyPart_append (pre rest : Str) (h : (':' : Char) ∉ pre) :
    keyPart (pre ++ ':' :: rest) = pre := by
  induction pre with
  | nil => simp [keyPart, List.takeWhile_cons]
  | cons c cs ih =>
    have hc : c ≠ ':' := fun e => h (e ▸ List.mem_cons_self c cs)
    have h' : (':' : Char) ∉ cs := fun m => h (List.mem_cons_of_mem _ m)
    simp [keyPart, List.takeWhile_cons, hc, ih h'] at ih ⊢
    exact ih h'

theorem valPart_append (pre rest : Str) (h : (':' : Char) ∉ pre) :
    valPart (pre ++ ':' :: rest) = rest := by
  induction pre with
  | nil => simp [valPart, List.dropWhile_cons]
  | cons c cs ih =>
    have hc : c ≠ ':' := fun e => h (e ▸ List.mem_cons_self c cs)
    have h' : (':' : Char) ∉ cs := fun m => h (List.mem_cons_of_mem _ m)
    simp only [valPart, List.cons_append, List.dropWhile_cons] at ih ⊢
    simp only [bne_iff_ne, ne_eq, hc, not_false_eq_true, if_true]
    exact ih h'

theorem parseLinesAux_content (ls : List Str) (hs : List (Str × Str)) (cs : List Str) :
    parseLinesAux ls hs cs true = (hs, cs ++ ls) := by
  induction ls generalizing cs with
  | nil => simp [parseLinesAux]
  | cons l ls ih => simp [parseLinesAux, ih]

theorem parseLinesAux_header (l : Str) (ls : List Str) (hs : List (Str × Str))
    (cs : List Str) (h1 : pyStrip l ≠ []) (h2 : (':' : Char) ∈ l) :
    parseLinesAux (l :: ls) hs cs false =
      parseLinesAux ls ((toLowerStr (pyStrip (keyPart l)), pyStrip (valPart l)) :: hs) cs
        false := by
  simp [parseLinesAux, h1, h2]

theorem parseLinesAux_blank (l : Str) (ls : List Str) (hs : List (Str × Str))
    (cs : List Str) (h : pyStrip l = []) :
    parseLinesAux (l :: ls) hs cs false = parseLinesAux ls hs cs true := by
  simp [parseLinesAux, h]

theorem joinNl_mem_split (x : Str) (l : List Str) (hx : x ∈ l) :
    ∃ pre post, joinNl l = pre ++ x ++ post := by
  induction l with
  | nil => cases hx
  | cons y ys ih =>
    rcases List.mem_cons.mp hx with h | h
    · subst h
      cases ys with
      | nil => exact ⟨[], [], by simp [joinNl]⟩
      | cons z zs => exact ⟨[], '\n' :: joinNl (z :: zs), by simp [joinNl_cons_cons]⟩
    · obtain ⟨pre, post, hp⟩ := ih h
      cases ys with
      | nil => cases h
      | cons z zs =>
        exact ⟨y ++ '\n' :: pre, post, by simp [joinNl_cons_cons, hp]⟩

/-! ## The email round trip (up to content strip) -/

/-- A header field as the sender scripts actually produce them: a single
line with no surrounding whitespace. -/
def headerOk (x : Str) : Prop := ('\n' : Char) ∉ x ∧ pyStrip x = x

instance (x : Str) : Decidable (headerOk x) := by
  unfold headerOk
  infer_instance

theorem notMemAppend {c : Char} {a b : Str} (ha : c ∉ a) (hb : c ∉ b) :
    c ∉ a ++ b := by
  intro hmem
  rcases List.mem_append.mp hmem with h | h
  · exact ha h
  · exact hb h

/-- Scanning the four encoded header lines collects exactly the four
header bindings, whatever lines follow. -/
theorem parseLinesAux_four_headers (i f t s : Str) (tail : List Str) (hi : headerOk i)
    (hf : headerOk f) (ht : headerOk t) (hs : headerOk s) :
    parseLinesAux (("ID: ".toList ++ i) :: ("From: ".toList ++ f) ::
        ("To: ".toList ++ t) :: ("Subject: ".toList ++ s) :: tail) [] [] false =
      parseLinesAux tail
        [("subject".toList, s), ("to".toList, t), ("from".toList, f), ("id".toList, i)]
        [] false := by
  have eID : "ID: ".toList ++ i = ['I', 'D'] ++ ':' :: (' ' :: i) := rfl
  have eFrom : "From: ".toList ++ f = ['F', 'r', 'o', 'm'] ++ ':' :: (' ' :: f) := rfl
  have eTo : "To: ".toList ++ t = ['T', 'o'] ++ ':' :: (' ' :: t) := rfl
  have eSubj : "Subject: ".toList ++ s =
      ['S', 'u', 'b', 'j', 'e', 'c', 't'] ++ ':' :: (' ' :: s) := rfl
  have nb1 : pyStrip ("ID: ".toList ++ i) ≠ [] := pyStrip_cons_ne_nil _ _ (by decide)
  have nb2 : pyStrip ("From: ".toList ++ f) ≠ [] := pyStrip_cons_ne_nil _ _ (by decide)
  have nb3 : pyStrip ("To: ".toList ++ t) ≠ [] := pyStrip_cons_ne_nil _ _ (by decide)
  have nb4 : pyStrip ("Subject: ".toList ++ s) ≠ [] := pyStrip_cons_ne_nil _ _ (by decide)
  have col1 : (':' : Char) ∈ "ID: ".toList ++ i := by rw [eID]; simp
  have col2 : (':' : Char) ∈ "From: ".toList ++ f := by rw [eFrom]; simp
  have col3 : (':' : Char) ∈ "To: ".toList ++ t := by rw [eTo]; simp
  have col4 : (':' : Char) ∈ "Subject: ".toList ++ s := by rw [eSubj]; simp
  have k1 : toLowerStr (pyStrip (keyPart ("ID: ".toList ++ i))) = "id".toList := by
    rw [eID, keyPart_append _ _ (by decide)]; decide
  have k2 : toLowerStr (pyStrip (keyPart ("From: ".toList ++ f))) = "from".toList := by
    rw [eFrom, keyPart_append _ _ (by decide)]; decide
  have k3 : toLowerStr (pyStrip (keyPart ("To: ".toList ++ t))) = "to".toList := by
    rw [eTo, keyPart_append _ _ (by decide)]; decide
  have k4 : toLowerStr (pyStrip (keyPart ("Subject: ".toList ++ s))) = "subject".toList := by
    rw [eSubj, keyPart_append _ _ (by decide)]; decide
  have v1 : pyStrip (valPart ("ID: ".toList ++ i)) = i := by
    rw [eID, valPart_append _ _ (by decide), pyStrip_cons_ws _ _ (by decide), hi.2]
  have v2 : pyStrip (valPart ("From: ".toList ++ f)) = f := by
    rw [eFrom, valPart_append _ _ (by decide), pyStrip_cons_ws _ _ (by decide), hf.2]
  have v3 : pyStrip (valPart ("To: ".toList ++ t)) = t := by
    rw [eTo, valPart_append _ _ (by decide), pyStrip_cons_ws _ _ (by decide), ht.2]
  have v4 : pyStrip (valPart ("Subject: ".toList ++ s)) = s := by
    rw [eSubj, valPart_append _ _ (by decide), pyStrip_cons_ws _ _ (by decide), hs.2]
  rw [parseLinesAux_header _ _ _ _ nb1 col1, parseLinesAux_header _ _ _ _ nb2 col2,
      parseLinesAux_header _ _ _ _ nb3 col3, parseLinesAux_header _ _ _ _ nb4 col4,
      k1, k2, k3, k4, v1, v2, v3, v4]

/-- The four collected header bindings answer the four lookups. -/
theorem lookup_four_headers (i f t s : Str) :
    lookupStr "id".toList
        [("subject".toList, s), ("to".toList, t), ("from".toList, f), ("id".toList, i)] =
      some i ∧
    lookupStr "from".toList
        [("subject".toList, s), ("to".toList, t), ("from".toList, f), ("id".toList, i)] =
      some f ∧
    lookupStr "to".toList
        [("subject".toList, s), ("to".toList, t), ("from".toList, f), ("id".toList, i)] =
      some t ∧
    lookupStr "subject".toList
        [("subject".toList, s), ("to".toList, t), ("from".toList, f), ("id".toList, i)] =
      some s := by
  refine ⟨?_, ?_, ?_, ?_⟩ <;> simp +decide [lookupStr]

/-- Decoding an encoded email message recovers the headers exactly and
the content up to Python's `strip()`. -/
theorem parse_email_roundtrip (i f t s c : Str) (hi : headerOk i) (hf : headerOk f)
    (ht : headerOk t) (hs : headerOk s) :
    parse_email_format (create_email_message i f t s c) =
      some ⟨i, f, t, s, pyStrip c⟩ := by
  have hsplit : splitOnNl (create_email_message i f t s c) =
      ("ID: ".toList ++ i) :: ("From: ".toList ++ f) :: ("To: ".toList ++ t) ::
        ("Subject: ".toList ++ s) :: [] :: splitOnNl c := by
    unfold create_email_message
    rw [splitOnNl_append ("ID: ".toList ++ i) _ (notMemAppend (by decide) hi.1),
        splitOnNl_append ("From: ".toList ++ f) _ (notMemAppend (by decide) hf.1),
        splitOnNl_append ("To: ".toList ++ t) _ (notMemAppend (by decide) ht.1),
        splitOnNl_append ("Subject: ".toList ++ s) _ (notMemAppend (by decide) hs.1),
        splitOnNl_cons_nl]
  have hrun : parseLinesAux (splitOnNl (create_email_message i f t s c)) [] [] false =
      ([("subject".toList, s), ("to".toList, t), ("from".toList, f), ("id".toList, i)],
        splitOnNl c) := by
    rw [hsplit, parseLinesAux_four_headers i f t s _ hi hf ht hs,
        parseLinesAux_blank _ _ _ _ pyStrip_nil, parseLinesAux_content]
    simp
  obtain ⟨l1, l2, l3, l4⟩ := lookup_four_headers i f t s
  simp only [parse_email_format, hrun, joinNl_splitOnNl, l1, l2, l3, l4]

/-! ## C1: round trip -/

/-- **C1** (amended).  Compact-JSON messages round-trip exactly at the
wire-value level, and email-format messages round-trip with the content
replaced by its `strip()` — byte-for-byte exactly when the content has
no leading or trailing whitespace — for header fields that are
single-line and strip-invariant (as the senders produce them). -/
theorem C1_roundtrip (jm : CompactMsg) (em : EmailMsg) (hid : headerOk em.id)
    (hfrom : headerOk em.from_) (hto : headerOk em.to_) (hsub : headerOk em.subject) :
    parse_json_format (some (encodeCompact jm)) = JResult.ok (encodeCompact jm) ∧
    parse_email_format (encodeEmail em) =
      some ⟨em.id, em.from_, em.to_, em.subject, pyStrip em.content⟩ :=
  ⟨rfl, parse_email_roundtrip em.id em.from_ em.to_ em.subject em.content hid hfrom hto hsub⟩

/-- **C1** counterexample: a content body of printable text with `$`,
backtick, quotes, backslash and an embedded blank line that ends in a
newline does not round-trip through the email format — the decoder
strips the trailing newline. -/
theorem C1_counterexample :
    parse_email_format (encodeEmail ⟨"claude-20250101-000000".toList, "claude".toList,
        "gemini".toList, "task".toList,
        "pay $(10) `cmd` \"q\" 'a' \\ end\n\ntail\n".toList⟩) ≠
      some ⟨"claude-20250101-000000".toList, "claude".toList, "gemini".toList,
        "task".toList, "pay $(10) `cmd` \"q\" 'a' \\ end\n\ntail\n".toList⟩ := by
  decide

/-- **C1** witness: the amended round trip at a concrete message. -/
theorem C1_witness :
    headerOk "claude-20250101-000000".toList ∧
    (parse_json_format (some (encodeCompact ⟨"claude-20250101-000000".toList,
          "gemini".toList, "task".toList, "Hello $100 \"world\"".toList⟩)) =
        JResult.ok (encodeCompact ⟨"claude-20250101-000000".toList, "gemini".toList,
          "task".toList, "Hello $100 \"world\"".toList⟩) ∧
      parse_email_format (encodeEmail ⟨"claude-20250101-000000".toList, "claude".toList,
          "gemini".toList, "task".toList, "Hello $100 \"world\"".toList⟩) =
        some ⟨"claude-20250101-000000".toList, "claude".toList, "gemini".toList,
          "task".toList, pyStrip ("Hello $100 \"world\"".toList)⟩) :=
  ⟨by decide, C1_roundtrip _ _ (by decide) (by decide) (by decide) (by decide)⟩

/-! ## C5: missing required fields -/

/-- If any of the four required header lookups fails, the email decoder
returns `None`. -/
theorem parse_email_none (content : Str)
    (h : lookupStr "id".toList (parseLinesAux (splitOnNl content) [] [] false).1 = none ∨
         lookupStr "from".toList (parseLinesAux (splitOnNl content) [] [] false).1 = none ∨
         lookupStr "to".toList (parseLinesAux (splitOnNl content) [] [] false).1 = none ∨
         lookupStr "subject".toList (parseLinesAux (splitOnNl content) [] [] false).1 =
           none) :
    parse_email_format content = none := by
  unfold parse_email_format
  dsimp only
  split
  · rename_i i f t s e1 e2 e3 e4
    rcases h with hh | hh | hh | hh <;> simp_all
  · rfl

/-- **C5** counterexample: the JSON decoder accepts a legacy payload
that has only `message_id` — sender, recipient and subject are all
missing, yet it decodes to a message (with `'unknown'` defaults) rather
than to a malformed result. -/
theorem C5_counterexample :
    parse_json_format (some [("message_id".toList, JVal.s "m1".toList)]) =
      JResult.ok [("id".toList, JVal.s "m1".toList),
        ("from".toList, JVal.s "unknown".toList),
        ("to".toList, JVal.s "unknown".toList),
        ("t".toList, JVal.s "unknown".toList),
        ("c".toList, JVal.s "".toList)] := by
  decide

/-- **C5** (amended).  The email decoder rejects a payload whose header
block lacks any of the four required headers; the JSON decoder rejects a
payload only when it has neither the complete compact key set
`{id, to, t, c}` nor the legacy `message_id` key (compact payloads carry
no explicit sender, and legacy payloads missing sender/recipient/type
decode with `'unknown'` defaults). -/
theorem C5_missing_fields (content : Str) (kvs : JDict)
    (hemail : lookupStr "id".toList (parseLinesAux (splitOnNl content) [] [] false).1 =
        none ∨
      lookupStr "from".toList (parseLinesAux (splitOnNl content) [] [] false).1 = none ∨
      lookupStr "to".toList (parseLinesAux (splitOnNl content) [] [] false).1 = none ∨
      lookupStr "subject".toList (parseLinesAux (splitOnNl content) [] [] false).1 = none)
    (hcompact : (hasKey kvs "id".toList && hasKey kvs "to".toList &&
        hasKey kvs "t".toList && hasKey kvs "c".toList) = false)
    (hlegacy : dictGet kvs "message_id".toList = none) :
    parse_email_format content = none ∧ parse_json_format (some kvs) = JResult.failed := by
  refine ⟨parse_email_none content hemail, ?_⟩
  simp only [parse_json_format, hcompact, Bool.false_eq_true, if_false, hlegacy]

/-- **C5** witness: a headers-only text missing `ID` and a JSON object
with neither compact keys nor `message_id` are both rejected. -/
theorem C5_witness :
    (lookupStr "id".toList
        (parseLinesAux (splitOnNl ("From: a\nTo: b\nSubject: s\n\nx".toList)) [] []
          false).1 = none ∨
      lookupStr "from".toList
        (parseLinesAux (splitOnNl ("From: a\nTo: b\nSubject: s\n\nx".toList)) [] []
          false).1 = none ∨
      lookupStr "to".toList
        (parseLinesAux (splitOnNl ("From: a\nTo: b\nSubject: s\n\nx".toList)) [] []
          false).1 = none ∨
      lookupStr "subject".toList
        (parseLinesAux (splitOnNl ("From: a\nTo: b\nSubject: s\n\nx".toList)) [] []
          false).1 = none) ∧
    (parse_email_format ("From: a\nTo: b\nSubject: s\n\nx".toList) = none ∧
      parse_json_format (some [("foo".toList, JVal.s "y".toList)]) = JResult.failed) :=
  ⟨by decide, C5_missing_fields _ _ (by decide) (by decide) (by decide)⟩

/-! ## C6: headers with no blank-line separator -/

/-- A text-block consisting of the four header lines and nothing else —
in particular no blank-line separator. -/
def headerOnly (i f t s : Str) : Str :=
  "ID: ".toList ++ i ++ '\n' ::
    ("From: ".toList ++ f ++ '\n' ::
      ("To: ".toList ++ t ++ '\n' :: ("Subject: ".toList ++ s)))

theorem splitOnNl_no_nl (a : Str) (h : ('\n' : Char) ∉ a) : splitOnNl a = [a] := by
  induction a with
  | nil => rfl
  | cons c cs ih =>
    have hc : c ≠ '\n' := fun e => h (e ▸ List.mem_cons_self c cs)
    have h' : ('\n' : Char) ∉ cs := fun m => h (List.mem_cons_of_mem _ m)
    simp only [splitOnNl, if_neg hc, ih h']

/-- **C6** counterexample: a `.txt` message with all four headers but no
blank line anywhere decodes *successfully* (with empty content), and one
delivery-agent processing step files it under `.unread`, not
`.malformed`. -/
theorem C6_counterexample :
    parse_email_format ("ID: m1\nFrom: claude\nTo: gemini\nSubject: task".toList) =
      some ⟨"m1".toList, "claude".toList, "gemini".toList, "task".toList, []⟩ ∧
    (EmailClient.process_message (fun _ => none) ⟨[], [], []⟩
        ⟨"m1.txt".toList, "ID: m1\nFrom: claude\nTo: gemini\nSubject: task".toList⟩).unread =
      [⟨"m1.txt".toList, "ID: m1\nFrom: claude\nTo: gemini\nSubject: task".toList⟩] ∧
    (EmailClient.process_message (fun _ => none) ⟨[], [], []⟩
        ⟨"m1.txt".toList, "ID: m1\nFrom: claude\nTo: gemini\nSubject: task".toList⟩).malformed =
      [] := by
  refine ⟨by decide, by decide, by decide⟩

/-- **C6** (amended).  A text-block input containing the four required
header lines but no blank-line separator decodes to a *valid* message
with empty content, and after a delivery-agent processing step the file
ends up in `unread`, not `malformed` (the parser treats end-of-input as
the end of the header block; only a missing required header makes it
fail). -/
theorem C6_no_blank_line (i f t s : Str) (hi : headerOk i) (hf : headerOk f)
    (ht : headerOk t) (hs : headerOk s) (jsonLoads : Str → Option JDict)
    (st : EmailClient.TFS) (name : Str)
    (hname : EmailClient.suffixOf name = txtSuffix) :
    parse_email_format (headerOnly i f t s) = some ⟨i, f, t, s, []⟩ ∧
    (EmailClient.process_message jsonLoads st ⟨name, headerOnly i f t s⟩).unread =
      st.unread ++ [⟨name, headerOnly i f t s⟩] ∧
    (EmailClient.process_message jsonLoads st ⟨name, headerOnly i f t s⟩).malformed =
      st.malformed := by
  have hsplit : splitOnNl (headerOnly i f t s) =
      ("ID: ".toList ++ i) :: ("From: ".toList ++ f) :: ("To: ".toList ++ t) ::
        ("Subject: ".toList ++ s) :: [] := by
    unfold headerOnly
    rw [splitOnNl_append ("ID: ".toList ++ i) _ (notMemAppend (by decide) hi.1),
        splitOnNl_append ("From: ".toList ++ f) _ (notMemAppend (by decide) hf.1),
        splitOnNl_append ("To: ".toList ++ t) _ (notMemAppend (by decide) ht.1),
        splitOnNl_no_nl _ (notMemAppend (by decide) hs.1)]
  have hrun : parseLinesAux (splitOnNl (headerOnly i f t s)) [] [] false =
      ([("subject".toList, s), ("to".toList, t), ("from".toList, f), ("id".toList, i)],
        []) := by
    rw [hsplit, parseLinesAux_four_headers i f t s _ hi hf ht hs]
    rfl
  obtain ⟨l1, l2, l3, l4⟩ := lookup_four_headers i f t s
  have hparse : parse_email_format (headerOnly i f t s) = some ⟨i, f, t, s, []⟩ := by
    simp only [parse_email_format, hrun, l1, l2, l3, l4]
    rfl
  refine ⟨hparse, ?_, ?_⟩ <;>
    simp [EmailClient.process_message, parse_message_file, hname, hparse]

/-- **C6** witness: the amended behavior at a concrete headers-only
message. -/
theorem C6_witness :
    headerOk "m2".toList ∧
    (parse_email_format (headerOnly "m2".toList "claude".toList "gemini".toList
        "task".toList) =
      some ⟨"m2".toList, "claude".toList, "gemini".toList, "task".toList, []⟩ ∧
    (EmailClient.process_message (fun _ => none) ⟨[], [], []⟩
        ⟨"m2.txt".toList, headerOnly "m2".toList "claude".toList "gemini".toList
          "task".toList⟩).unread =
      [⟨"m2.txt".toList, headerOnly "m2".toList "claude".toList "gemini".toList
        "task".toList⟩] ∧
    (EmailClient.process_message (fun _ => none) ⟨[], [], []⟩
        ⟨"m2.txt".toList, headerOnly "m2".toList "claude".toList "gemini".toList
          "task".toList⟩).malformed = []) := by
  refine ⟨by decide, ?_⟩
  have := C6_no_blank_line "m2".toList "claude".toList "gemini".toList "task".toList
    (by decide) (by decide) (by decide) (by decide) (fun _ => none) ⟨[], [], []⟩
    "m2.txt".toList (by decide)
  simpa using this

/-! ## C7: decoder fallback order for ambiguous extensions -/

/-- **C7**.  For a file whose extension is neither `.txt` nor `.json`,
`parse_message_file` attempts JSON decoding first and email decoding
second; the first success wins and the result is malformed (`none`)
exactly when both attempts fail.  The hypothesis excludes the one case
in which the JSON attempt raises instead of failing (a legacy payload
whose `payload` field is not a dict — such bytes cannot simultaneously
be a well-formed email block).  The decoder is a pure function, hence
deterministic. -/
theorem C7_fallback_order (jsonLoads : Str → Option JDict) (suffix content : Str)
    (h1 : suffix ≠ txtSuffix) (_h2 : suffix ≠ jsonSuffix)
    (h3 : parse_json_format (jsonLoads content) ≠ JResult.raised) :
    parse_message_file jsonLoads suffix content =
      ((match parse_json_format (jsonLoads content) with
        | JResult.ok d => some d
        | _ => none) <|>
        (parse_email_format content).map emailToDict) := by
  unfold parse_message_file
  dsimp only
  rw [if_neg h1]
  cases hj : parse_json_format (jsonLoads content) with
  | ok d => simp
  | failed => simp
  | raised => exact absurd hj h3

/-- **C7** witness: the fallback at a concrete non-JSON, valid-email
input with extension `.md`. -/
theorem C7_witness :
    (".md".toList ≠ txtSuffix ∧ ".md".toList ≠ jsonSuffix ∧
      parse_json_format ((fun _ => none) ("ID: a\nFrom: b\nTo: c\nSubject: d\n\nhi".toList)) ≠
        JResult.raised) ∧
    parse_message_file (fun _ => none) ".md".toList
        ("ID: a\nFrom: b\nTo: c\nSubject: d\n\nhi".toList) =
      ((match parse_json_format ((fun _ => none)
            ("ID: a\nFrom: b\nTo: c\nSubject: d\n\nhi".toList)) with
        | JResult.ok d => some d
        | _ => none) <|>
        (parse_email_format ("ID: a\nFrom: b\nTo: c\nSubject: d\n\nhi".toList)).map
          emailToDict) :=
  ⟨⟨by decide, by decide, by decide⟩,
    C7_fallback_order (fun _ => none) ".md".toList
      ("ID: a\nFrom: b\nTo: c\nSubject: d\n\nhi".toList) (by decide) (by decide)
      (by decide)⟩

/-! ## C2: no acknowledgment storms -/

/-- An inbox entry carrying a message whose subject/type is `ack` or
`error`. -/
def entryAckOrError (e : McpClient.Entry) : Bool :=
  match e.payload with
  | some kvs =>
    dictGet kvs "type".toList = some (JVal.s "ack".toList) ||
      dictGet kvs "type".toList = some (JVal.s "error".toList)
  | none => false

/-- Processing one `ack`/`error` entry never adds an `ack` to the
outbox (valid → suppressed; invalid → an `error` reply, not an `ack`). -/
theorem countAcks_process_step (now : Str) (st : McpClient.FS) (e : McpClient.Entry)
    (h : entryAckOrError e = true) :
    McpClient.countAcks (McpClient.process_message now st e).outbox =
      McpClient.countAcks st.outbox := by
  unfold entryAckOrError at h
  cases hp : e.payload with
  | none => rw [hp] at h; cases h
  | some kvs =>
    rw [hp] at h
    have hty : McpClient.typeNotAckError kvs = false := by
      unfold McpClient.typeNotAckError
      rcases Bool.or_eq_true _ _ |>.mp h with hh | hh <;>
        rw [of_decide_eq_true hh] <;> simp
    unfold McpClient.process_message
    rw [hp]
    by_cases hv : McpClient.validate_message kvs = true
    · simp [hv, hty]
    · have hv' : McpClient.validate_message kvs = false := by
        cases hb : McpClient.validate_message kvs
        · rfl
        · exact absurd hb hv
      simp only [hv', Bool.false_eq_true, if_false]
      have herr : dictGet (McpClient.send_error now
          ((dictGet kvs "message_id".toList).getD (JVal.s "unknown".toList))
          ("Message failed validation: ".toList ++ e.name)) "type".toList =
          some (JVal.s "error".toList) := rfl
      simp only [McpClient.countAcks, List.countP_append, List.countP_cons,
        List.countP_nil, herr]
      simp


/-- **C2**.  A message whose subject/type is `ack` or `error` never
causes a new `ack` to be enqueued: processing any batch of such
messages (in particular 100 consecutive `ack`s) leaves the number of
`ack` messages in the outbox unchanged. -/
theorem C2_no_ack_storm (now : Str) (st : McpClient.FS) (entries : List McpClient.Entry)
    (h : ∀ e ∈ entries, entryAckOrError e = true) :
    McpClient.countAcks (McpClient.processAll now st entries).outbox =
      McpClient.countAcks st.outbox := by
  induction entries generalizing st with
  | nil => rfl
  | cons e rest ih =>
    have he : entryAckOrError e = true := h e (List.mem_cons_self e rest)
    have hrest : ∀ e' ∈ rest, entryAckOrError e' = true :=
      fun e' m => h e' (List.mem_cons_of_mem _ m)
    unfold McpClient.processAll
    rw [List.foldl_cons]
    have := ih (McpClient.process_message now st e) hrest
    unfold McpClient.processAll at this
    rw [this, countAcks_process_step now st e he]

/-- A concrete valid `ack` message and the corresponding inbox entry. -/
def ackDict : JDict :=
  [("message_id".toList, JVal.s "gemini-20250101-000000".toList),
   ("timestamp".toList, JVal.s "2025-01-01T00:00:00Z".toList),
   ("sender".toList, JVal.s "gemini".toList),
   ("recipient".toList, JVal.s "claude".toList),
   ("type".toList, JVal.s "ack".toList),
   ("payload".toList, JVal.o [("content".toList, "Acknowledged".toList)])]

def ackEntry : McpClient.Entry := ⟨"gemini-20250101-000000.json".toList, some ackDict⟩

/-- **C2** witness: processing 100 consecutive valid `ack` messages from
an empty outbox enqueues zero `ack` messages. -/
theorem C2_witness :
    (∀ e ∈ List.replicate 100 ackEntry, entryAckOrError e = true) ∧
    McpClient.countAcks
        (McpClient.processAll "t0".toList ⟨[], [], [], []⟩
          (List.replicate 100 ackEntry)).outbox = 0 :=
  ⟨by decide, by
    rw [C2_no_ack_storm "t0".toList ⟨[], [], [], []⟩ (List.replicate 100 ackEntry)
      (by decide)]
    rfl⟩

/-! ## C3: malformed-entry handling -/

/-- The error reply `process_message` sends on a validation failure. -/
def errReply (now : Str) (kvs : JDict) (name : Str) : JDict :=
  McpClient.send_error now
    ((dictGet kvs "message_id".toList).getD (JVal.s "unknown".toList))
    ("Message failed validation: ".toList ++ name)

/-- The `original_message_id` tag of a reply built by `create_message`:
present iff the passed value is truthy (`if original_message_id:`). -/
theorem create_message_orig_tag (now ty ct : Str) (v : JVal) :
    (match dictGet (McpClient.create_message now ty ct (some v)) "payload".toList with
     | some (JVal.o p) => sdictGet p "original_message_id".toList
     | _ => none) =
      (if jvTruthy v then some (jvStr v) else none) := by
  cases htr : jvTruthy v with
  | false =>
    unfold McpClient.create_message
    dsimp only
    rw [htr]
    rfl
  | true =>
    unfold McpClient.create_message
    dsimp only
    rw [htr]
    rfl

/-- **C3** counterexample: an inbox entry whose bytes are not valid JSON
(decode failure).  `json.load` raises, the `except` block only logs, and
the file stays in `.processing`: it is neither relocated to `malformed`
nor answered with an error notification. -/
theorem C3_counterexample :
    McpClient.process_message "t0".toList ⟨[], [], [], []⟩ ⟨"bad.json".toList, none⟩ =
      ⟨[⟨"bad.json".toList, none⟩], [], [], []⟩ := by
  decide

/-- **C3** (amended).  An inbox entry whose payload parses as a JSON
object but fails schema validation is relocated to `malformed` (and
nowhere else), and a best-effort `error` notification is enqueued,
tagged with the extracted `message_id` (or `'unknown'` when absent; the
tag is omitted when the extracted value is falsy, e.g. an empty
string).  Entries whose bytes fail JSON decoding altogether instead
remain in `.processing` (see the counterexample). -/
theorem C3_malformed_routing (now : Str) (st : McpClient.FS) (e : McpClient.Entry)
    (kvs : JDict) (hp : e.payload = some kvs)
    (hv : McpClient.validate_message kvs = false) :
    (McpClient.process_message now st e).malformed = st.malformed ++ [e] ∧
    (McpClient.process_message now st e).processing = st.processing ∧
    (McpClient.process_message now st e).unread = st.unread ∧
    (McpClient.process_message now st e).outbox = st.outbox ++ [errReply now kvs e.name] ∧
    dictGet (errReply now kvs e.name) "type".toList = some (JVal.s "error".toList) ∧
    (match dictGet (errReply now kvs e.name) "payload".toList with
     | some (JVal.o p) => sdictGet p "original_message_id".toList
     | _ => none) =
      (if jvTruthy ((dictGet kvs "message_id".toList).getD (JVal.s "unknown".toList)) then
        some (jvStr ((dictGet kvs "message_id".toList).getD (JVal.s "unknown".toList)))
      else none) := by
  refine ⟨?_, ?_, ?_, ?_, rfl, create_message_orig_tag now "error".toList _ _⟩ <;>
    simp [McpClient.process_message, hp, hv, errReply]

/-- **C3** witness: a JSON object missing most required fields is routed
to `malformed` with an `error` reply tagged by its `message_id`. -/
theorem C3_witness :
    ((⟨"m9.json".toList, some [("message_id".toList, JVal.s "m9".toList)]⟩ :
        McpClient.Entry).payload = some [("message_id".toList, JVal.s "m9".toList)] ∧
      McpClient.validate_message [("message_id".toList, JVal.s "m9".toList)] = false) ∧
    ((McpClient.process_message "t0".toList ⟨[], [], [], []⟩
        ⟨"m9.json".toList, some [("message_id".toList, JVal.s "m9".toList)]⟩).malformed =
      [] ++ [⟨"m9.json".toList, some [("message_id".toList, JVal.s "m9".toList)]⟩] ∧
     (McpClient.process_message "t0".toList ⟨[], [], [], []⟩
        ⟨"m9.json".toList, some [("message_id".toList, JVal.s "m9".toList)]⟩).processing =
      [] ∧
     (McpClient.process_message "t0".toList ⟨[], [], [], []⟩
        ⟨"m9.json".toList, some [("message_id".toList, JVal.s "m9".toList)]⟩).unread =
      [] ∧
     (McpClient.process_message "t0".toList ⟨[], [], [], []⟩
        ⟨"m9.json".toList, some [("message_id".toList, JVal.s "m9".toList)]⟩).outbox =
      [] ++ [errReply "t0".toList [("message_id".toList, JVal.s "m9".toList)]
        "m9.json".toList] ∧
     dictGet (errReply "t0".toList [("message_id".toList, JVal.s "m9".toList)]
        "m9.json".toList) "type".toList = some (JVal.s "error".toList) ∧
     (match dictGet (errReply "t0".toList [("message_id".toList, JVal.s "m9".toList)]
          "m9.json".toList) "payload".toList with
      | some (JVal.o p) => sdictGet p "original_message_id".toList
      | _ => none) =
      (if jvTruthy ((dictGet [("message_id".toList, JVal.s "m9".toList)]
            "message_id".toList).getD (JVal.s "unknown".toList)) then
        some (jvStr ((dictGet [("message_id".toList, JVal.s "m9".toList)]
          "message_id".toList).getD (JVal.s "unknown".toList)))
      else none)) :=
  ⟨⟨rfl, by decide⟩,
    C3_malformed_routing "t0".toList ⟨[], [], [], []⟩
      ⟨"m9.json".toList, some [("message_id".toList, JVal.s "m9".toList)]⟩
      [("message_id".toList, JVal.s "m9".toList)] rfl (by decide)⟩

/-! ## C4: racing claimers -/

/-- **C4** counterexample: agent A's poll cycle holds the stale listing
`[a.json, b.json]`, but `a.json` has already been claimed by the other
agent.  A's claim of `a.json` fails with `FileNotFoundError`, which is
raised outside the `try` block and aborts the whole cycle: `b.json` is
left unprocessed (second conjunct: claiming it — the behavior the claim
asserts — would have succeeded). -/
theorem C4_counterexample :
    Race.pollCycleA ⟨["b.json".toList], [], []⟩ ["a.json".toList, "b.json".toList] =
      (⟨["b.json".toList], [], []⟩, true) ∧
    Race.claimA ⟨["b.json".toList], [], []⟩ "b.json".toList =
      some ⟨[], ["b.json".toList], []⟩ := by
  exact ⟨by decide, by decide⟩

/-- **C4** (amended).  When two delivery agents race on the same inbox
filename: at most one claim succeeds (after a successful claim the
other agent's claim of the same name fails); a claim — successful or
not — neither duplicates nor loses any file; the loser's failure is
exactly the source file being gone; and the loser's poll cycle *aborts*
(the `FileNotFoundError` propagates past the per-candidate loop to the
main loop, which catches it and keeps polling), leaving the remaining
candidates untouched for the next cycle rather than skipping to the
next candidate within the same cycle. -/
theorem C4_claim_race :
    (∀ (st : Race.RSt) (n : Str) (st' : Race.RSt), st.inbox.Nodup →
        Race.claimA st n = some st' → Race.claimB st' n = none) ∧
    (∀ (st : Race.RSt) (n : Str) (st' : Race.RSt), Race.claimA st n = some st' →
        ∀ m, Race.total st' m = Race.total st m) ∧
    (∀ (st : Race.RSt) (n : Str), Race.claimA st n = none ↔ n ∉ st.inbox) ∧
    (∀ (st : Race.RSt) (n : Str) (rest : List Str), n ∉ st.inbox →
        Race.pollCycleA st (n :: rest) = (st, true)) := by
  refine ⟨?_, ?_, ?_, ?_⟩
  · intro st n st' hnd hc
    unfold Race.claimA at hc
    by_cases hm : n ∈ st.inbox
    · rw [if_pos hm] at hc
      obtain rfl := Option.some_injective _ hc
      unfold Race.claimB
      rw [if_neg]
      intro hmem
      exact absurd rfl (hnd.mem_erase_iff.mp hmem).1
    · rw [if_neg hm] at hc
      cases hc
  · intro st n st' hc m
    unfold Race.claimA at hc
    by_cases hm : n ∈ st.inbox
    · rw [if_pos hm] at hc
      obtain rfl := Option.some_injective _ hc
      unfold Race.total
      by_cases hmn : m = n
      · subst hmn
        have h1 : st.inbox.count m - 1 + 1 = st.inbox.count m := by
          have := List.count_pos_iff.mpr hm
          omega
        simp only [List.count_erase_self, List.count_append]
        simp [List.count_cons]
        omega
      · simp only [List.count_erase_of_ne hmn, List.count_append]
        simp [List.count_cons, hmn]
    · rw [if_neg hm] at hc
      cases hc
  · intro st n
    unfold Race.claimA
    constructor
    · intro hc hm
      rw [if_pos hm] at hc
      cases hc
    · intro hm
      rw [if_neg hm]
  · intro st n rest hm
    unfold Race.pollCycleA Race.claimA
    rw [if_neg hm]

/-- **C4** witness: the race behavior at a concrete two-agent scenario. -/
theorem C4_witness :
    Race.claimB ⟨[], ["f.json".toList], []⟩ "f.json".toList = none ∧
    Race.total ⟨[], ["f.json".toList], []⟩ "f.json".toList =
      Race.total ⟨["f.json".toList], [], []⟩ "f.json".toList ∧
    Race.pollCycleA ⟨[], [], []⟩ ("g.json".toList :: []) = (⟨[], [], []⟩, true) :=
  ⟨C4_claim_race.1 ⟨["f.json".toList], [], []⟩ "f.json".toList
      ⟨[], ["f.json".toList], []⟩ (by decide) (by decide),
    C4_claim_race.2.1 ⟨["f.json".toList], [], []⟩ "f.json".toList
      ⟨[], ["f.json".toList], []⟩ (by decide) "f.json".toList,
    C4_claim_race.2.2.2 ⟨[], [], []⟩ "g.json".toList [] (by decide)⟩

/-! ## C8: inbox listing -/

/-- **C8** counterexample: a directory enumeration holding `b.json`
(mtime 5), `a.json` (mtime 3) and the non-hidden `c.txt` (mtime 1).
`poll_inbox` keeps the enumeration order — `b.json` before the older
`a.json`, so the result is not mtime-ascending — and silently excludes
`c.txt` although it is present and unclaimed. -/
theorem C8_counterexample :
    McpClient.poll_inbox_listing
        [("b.json".toList, (5 : ℚ)), ("a.json".toList, (3 : ℚ)),
          ("c.txt".toList, (1 : ℚ))] =
      [("b.json".toList, (5 : ℚ)), ("a.json".toList, (3 : ℚ))] ∧
    ¬ List.Sorted (fun x y : Str × ℚ => x.2 ≤ y.2)
        (McpClient.poll_inbox_listing
          [("b.json".toList, (5 : ℚ)), ("a.json".toList, (3 : ℚ)),
            ("c.txt".toList, (1 : ℚ))]) ∧
    ("c.txt".toList, (1 : ℚ)) ∉
      McpClient.poll_inbox_listing
        [("b.json".toList, (5 : ℚ)), ("a.json".toList, (3 : ℚ)),
          ("c.txt".toList, (1 : ℚ))] := by
  have heq : McpClient.poll_inbox_listing
      [("b.json".toList, (5 : ℚ)), ("a.json".toList, (3 : ℚ)),
        ("c.txt".toList, (1 : ℚ))] =
      [("b.json".toList, (5 : ℚ)), ("a.json".toList, (3 : ℚ))] := by decide
  refine ⟨heq, ?_, by decide⟩
  rw [heq]
  intro hs
  have h5 : ((5 : ℚ) ≤ 3) :=
    (List.pairwise_cons.mp hs).1 ("a.json".toList, (3 : ℚ)) (by simp)
  norm_num at h5

/-- **C8** (amended).  `poll_inbox` lists exactly the non-hidden
`*.json` entries of the inbox root, preserving directory enumeration
order (it applies no mtime sort); the mtime-ascending ordering holds for
the checkpoint-based reader `get_new_messages`, which also restricts to
readable, pattern-matching files newer than the checkpoint. -/
theorem C8_listing :
    (∀ dir : List (Str × ℚ), List.Sublist (McpClient.poll_inbox_listing dir) dir) ∧
    (∀ (dir : List (Str × ℚ)) (f : Str × ℚ),
        f ∈ McpClient.poll_inbox_listing dir ↔
          f ∈ dir ∧ McpClient.matchesJson f.1 = true ∧ McpClient.isHidden f.1 = false) ∧
    (∀ (dir : List BridgeServer.FileE) (pattern : Str → Bool) (last : ℚ),
        List.Sorted BridgeServer.timeLE (BridgeServer.get_new_messages dir pattern last)) ∧
    (∀ (dir : List BridgeServer.FileE) (pattern : Str → Bool) (last : ℚ)
        (f : BridgeServer.FileE),
        f ∈ BridgeServer.get_new_messages dir pattern last ↔
          f ∈ dir ∧ pattern f.name = true ∧ last < f.mtime ∧ f.readable = true) := by
  refine ⟨?_, ?_, ?_, ?_⟩
  · intro dir
    exact List.filter_sublist dir
  · intro dir f
    simp [McpClient.poll_inbox_listing, List.mem_filter, Bool.and_eq_true,
      Bool.not_eq_true', and_assoc]
  · intro dir pattern last
    exact List.sorted_insertionSort BridgeServer.timeLE _
  · intro dir pattern last f
    simp [BridgeServer.get_new_messages, List.mem_filter, Bool.and_eq_true,
      decide_eq_true_eq, and_assoc]

/-- **C8** witness: the amended listing characterization at a concrete
directory state. -/
theorem C8_witness :
    List.Sublist
      (McpClient.poll_inbox_listing
        [("b.json".toList, (5 : ℚ)), (".hid.json".toList, (2 : ℚ))])
      [("b.json".toList, (5 : ℚ)), (".hid.json".toList, (2 : ℚ))] ∧
    (("b.json".toList, (5 : ℚ)) ∈
        McpClient.poll_inbox_listing
          [("b.json".toList, (5 : ℚ)), (".hid.json".toList, (2 : ℚ))] ↔
      ("b.json".toList, (5 : ℚ)) ∈
          [("b.json".toList, (5 : ℚ)), (".hid.json".toList, (2 : ℚ))] ∧
        McpClient.matchesJson "b.json".toList = true ∧
        McpClient.isHidden "b.json".toList = false) ∧
    List.Sorted BridgeServer.timeLE
      (BridgeServer.get_new_messages [⟨"x.txt".toList, "hi".toList, 4, true⟩,
        ⟨"y.txt".toList, "ho".toList, 2, true⟩] (fun _ => true) 0) :=
  ⟨C8_listing.1 [("b.json".toList, (5 : ℚ)), (".hid.json".toList, (2 : ℚ))],
    C8_listing.2.1 [("b.json".toList, (5 : ℚ)), (".hid.json".toList, (2 : ℚ))]
      ("b.json".toList, (5 : ℚ)),
    C8_listing.2.2.1 [⟨"x.txt".toList, "hi".toList, 4, true⟩,
      ⟨"y.txt".toList, "ho".toList, 2, true⟩] (fun _ => true) 0⟩

/-! ## C9: the presentation formatter -/

theorem contentElem_mem_blocks (count : Nat) :
    ∀ (i : Nat) (msgs : List DisplayMsg) (m : DisplayMsg), m ∈ msgs →
      UnifiedServer.contentElem m ∈ UnifiedServer.formatBlocks count i msgs := by
  intro i msgs
  induction msgs generalizing i with
  | nil => intro m hm; cases hm
  | cons x rest ih =>
    intro m hm
    unfold UnifiedServer.formatBlocks
    rcases List.mem_cons.mp hm with h | h
    · subst h
      apply List.mem_append_left
      simp [UnifiedServer.msgBlock]
    · exact List.mem_append_right _ (ih (i + 1) m h)

theorem contentElem_mem_blocks_watcher (count : Nat) :
    ∀ (i : Nat) (msgs : List DisplayMsg) (m : DisplayMsg), m ∈ msgs →
      CheckMailbox.contentElem m ∈ CheckMailbox.formatBlocks count i msgs := by
  intro i msgs
  induction msgs generalizing i with
  | nil => intro m hm; cases hm
  | cons x rest ih =>
    intro m hm
    unfold CheckMailbox.formatBlocks
    rcases List.mem_cons.mp hm with h | h
    · subst h
      apply List.mem_append_left
      simp [CheckMailbox.msgBlock]
    · exact List.mem_append_right _ (ih (i + 1) m h)

/-- **C9** counterexample: a message whose content `" hi "` is well
under every budget is *not* rendered unchanged — the formatter strips it
first, so the original content never appears in the digest. -/
theorem C9_counterexample :
    isSegmentOf " hi ".toList
        (UnifiedServer.format_messages
          [⟨"f.txt".toList, "m1".toList, "task".toList, "2025".toList, " hi ".toList⟩]
          "Gemini".toList) = false := by
  decide

/-- **C9** (amended).  Both formatters are pure functions over the
message batch.  For every rendered message the content is first
whitespace-stripped; the stripped content appears verbatim in the digest
when it is within the budget (1000 for the unified server, 500 for the
watcher, whose per-message label is the source file name instead of
subject/id/timestamp), and otherwise its budget-length prefix appears
followed by the truncation marker. -/
theorem C9_formatter (msgs : List DisplayMsg) (m : DisplayMsg) (sender : Str)
    (hm : m ∈ msgs) :
    (∃ pre post, UnifiedServer.format_messages msgs sender =
        pre ++ (if 1000 < (pyStrip m.content).length then
            (pyStrip m.content).take 1000 ++ UnifiedServer.truncMarker
          else pyStrip m.content) ++ post) ∧
    (∃ pre post out, CheckMailbox.format_messages msgs = some out ∧ out =
        pre ++ (if 500 < (pyStrip m.content).length then
            (pyStrip m.content).take 500 ++ CheckMailbox.truncMarker
          else pyStrip m.content) ++ post) := by
  have hne : msgs.isEmpty = false := by
    cases msgs
    · cases hm
    · rfl
  constructor
  · have hmem : UnifiedServer.contentElem m ∈
        (("📬 **NEW MESSAGES FROM ".toList ++ toUpperStr sender ++ "** (".toList ++
            natStr msgs.length ++ " unread)".toList) ::
          List.replicate 60 '=' :: ([] : Str) ::
          UnifiedServer.formatBlocks msgs.length 1 msgs) :=
      List.mem_cons_of_mem _ (List.mem_cons_of_mem _ (List.mem_cons_of_mem _
        (contentElem_mem_blocks msgs.length 1 msgs m hm)))
    obtain ⟨pre, post, hp⟩ := joinNl_mem_split _ _ hmem
    refine ⟨pre, post, ?_⟩
    simp only [UnifiedServer.format_messages, hne, Bool.false_eq_true, if_false]
    exact hp
  · have hmem : CheckMailbox.contentElem m ∈
        (("📬 **NEW MESSAGES FROM GEMINI** (".toList ++ natStr msgs.length ++
            " unread)".toList) ::
          List.replicate 60 '=' :: ([] : Str) ::
          CheckMailbox.formatBlocks msgs.length 1 msgs) :=
      List.mem_cons_of_mem _ (List.mem_cons_of_mem _ (List.mem_cons_of_mem _
        (contentElem_mem_blocks_watcher msgs.length 1 msgs m hm)))
    obtain ⟨pre, post, hp⟩ := joinNl_mem_split _ _ hmem
    refine ⟨pre, post, _, ?_, hp⟩
    simp only [CheckMailbox.format_messages, hne, Bool.false_eq_true, if_false]

/-- **C9** witness: the amended rendering at a concrete one-message
batch. -/
theorem C9_witness :
    (⟨"f.txt".toList, "m1".toList, "task".toList, "2025".toList, "hello".toList⟩ :
        DisplayMsg) ∈
      [(⟨"f.txt".toList, "m1".toList, "task".toList, "2025".toList, "hello".toList⟩ :
        DisplayMsg)] ∧
    ((∃ pre post, UnifiedServer.format_messages
        [⟨"f.txt".toList, "m1".toList, "task".toList, "2025".toList, "hello".toList⟩]
        "Gemini".toList =
        pre ++ (if 1000 < (pyStrip ("hello".toList)).length then
            (pyStrip ("hello".toList)).take 1000 ++ UnifiedServer.truncMarker
          else pyStrip ("hello".toList)) ++ post) ∧
      (∃ pre post out, CheckMailbox.format_messages
          [⟨"f.txt".toList, "m1".toList, "task".toList, "2025".toList, "hello".toList⟩] =
          some out ∧ out =
          pre ++ (if 500 < (pyStrip ("hello".toList)).length then
              (pyStrip ("hello".toList)).take 500 ++ CheckMailbox.truncMarker
            else pyStrip ("hello".toList)) ++ post)) :=
  ⟨by decide,
    C9_formatter
      [⟨"f.txt".toList, "m1".toList, "task".toList, "2025".toList, "hello".toList⟩]
      ⟨"f.txt".toList, "m1".toList, "task".toList, "2025".toList, "hello".toList⟩
      "Gemini".toList (by decide)⟩

/-! ## C10: checkpoint defaults and strict mtime comparison -/

/-- **C10**.  If the checkpoint file is absent, or its contents do not
parse as a float, the last-check time defaults to `0`, so the next
mtime-based scan returns every readable pattern-matching file (all real
mtimes are positive); and the comparison is strict, so a file whose
mtime exactly equals the stored checkpoint is never returned. -/
theorem C10_checkpoint (pf : Str → Option ℚ) (checkFile : Option Str)
    (h : checkFile = none ∨ ∃ s, checkFile = some s ∧ pf (pyStrip s) = none) :
    BridgeServer.get_last_check_time pf checkFile = 0 ∧
    (∀ (dir : List BridgeServer.FileE) (pattern : Str → Bool),
        ∀ f ∈ dir, pattern f.name = true → f.readable = true → (0 : ℚ) < f.mtime →
          f ∈ BridgeServer.get_new_messages dir pattern
            (BridgeServer.get_last_check_time pf checkFile)) ∧
    (∀ (dir : List BridgeServer.FileE) (pattern : Str → Bool) (last : ℚ)
        (f : BridgeServer.FileE), f.mtime = last →
        f ∉ BridgeServer.get_new_messages dir pattern last) := by
  have h0 : BridgeServer.get_last_check_time pf checkFile = 0 := by
    rcases h with h | ⟨s, hs, hp⟩
    · rw [h]
      rfl
    · rw [hs]
      unfold BridgeServer.get_last_check_time
      dsimp only
      rw [hp]
  refine ⟨h0, ?_, ?_⟩
  · intro dir pattern f hf hpat hread hpos
    rw [h0]
    simp [BridgeServer.get_new_messages, List.mem_filter, hf, hpat, hread, hpos]
  · intro dir pattern last f hmt hmem
    simp [BridgeServer.get_new_messages, List.mem_filter, hmt] at hmem

/-- **C10** witness: an unparseable checkpoint file defaults to `0` at a
concrete scan. -/
theorem C10_witness :
    ((some "garbage".toList : Option Str) = none ∨
      ∃ s, (some "garbage".toList : Option Str) = some s ∧
        (fun _ : Str => (none : Option ℚ)) (pyStrip s) = none) ∧
    (BridgeServer.get_last_check_time (fun _ => none) (some "garbage".toList) = 0 ∧
      (∀ (dir : List BridgeServer.FileE) (pattern : Str → Bool),
          ∀ f ∈ dir, pattern f.name = true → f.readable = true → (0 : ℚ) < f.mtime →
            f ∈ BridgeServer.get_new_messages dir pattern
              (BridgeServer.get_last_check_time (fun _ => none) (some "garbage".toList))) ∧
      (∀ (dir : List BridgeServer.FileE) (pattern : Str → Bool) (last : ℚ)
          (f : BridgeServer.FileE), f.mtime = last →
          f ∉ BridgeServer.get_new_messages dir pattern last)) :=
  ⟨Or.inr ⟨"garbage".toList, rfl, rfl⟩,
    C10_checkpoint (fun _ => none) (some "garbage".toList)
      (Or.inr ⟨"garbage".toList, rfl, rfl⟩)⟩

end Mailbox
